import Mathlib

/-!
Verification of the FreeRDP drawing-order wire codec (orders.c) against its
natural-language specification.  The definitions below are a shallow embedding
of the codec: a byte stream is a list of octets plus a read cursor, every
fallible read returns an `Option`, and machine-integer arithmetic is mirrored
with explicit masks on `Nat` / sign conversions to `Int`.
-/

namespace FreeRDPOrders

set_option maxRecDepth 8000

/-- Wire stream: the receive buffer and a read cursor, mirroring `wStream`.
Cells are octets; `byteAt` reduces each cell modulo 256 the way the C byte
loads do. -/
structure WStream where
  data : List Nat
  pos : Nat
deriving DecidableEq, Repr

/-- Number of unread bytes, mirroring `Stream_GetRemainingLength`. -/
def WStream.remaining (s : WStream) : Nat := s.data.length - s.pos

/-- Octet at offset `i` past the cursor (0 when out of bounds; every use is
guarded by a length check, as in the C code). -/
def WStream.byteAt (s : WStream) (i : Nat) : Nat := s.data.getD (s.pos + i) 0 % 256

/-- Advance the cursor by `n` bytes, mirroring `Stream_Seek`/`Stream_Read`. -/
def WStream.advance (s : WStream) (n : Nat) : WStream := { s with pos := s.pos + n }

/-- Two-complement reinterpretation of a 16-bit load as `INT16`. -/
def toINT16 (n : Nat) : Int := if n < 0x8000 then (n : Int) else (n : Int) - 0x10000

/-- Two-complement reinterpretation of an 8-bit load as `INT8`. -/
def toINT8 (n : Nat) : Int := if n < 0x80 then (n : Int) else (n : Int) - 0x100

/-- Two-complement reinterpretation of a `UINT32` value as `INT32`. -/
def toINT32 (n : Nat) : Int := if n < 0x80000000 then (n : Int) else (n : Int) - 0x100000000

/-- `update_read_2byte_unsigned`: 1 byte if the top bit is clear, else the
low 7 bits become the high byte and a second byte supplies the low byte. -/
def update_read_2byte_unsigned (s : WStream) : Option (Nat × WStream) :=
  if s.remaining < 1 then none
  else
    let byte := s.byteAt 0
    if byte &&& 0x80 ≠ 0 then
      if (s.advance 1).remaining < 1 then none
      else
        let hi := ((byte &&& 0x7F) <<< 8) &&& 0xFFFF
        some (hi ||| s.byteAt 1, s.advance 2)
    else
      some (byte &&& 0x7F, s.advance 1)

/-- `update_write_2byte_unsigned`: fails above 0x7FFF, emits one byte below
0x7F and two bytes otherwise.  The emitted bytes are returned as a list. -/
def update_write_2byte_unsigned (value : Nat) : Option (List Nat) :=
  if value > 0x7FFF then none
  else if value ≥ 0x7F then
    some [((value &&& 0x7F00) >>> 8) ||| 0x80, value &&& 0xFF]
  else
    some [value &&& 0x7F]

/-- `update_read_color`: 3 bytes, low byte first, masked into a 24-bit value. -/
def update_read_color (s : WStream) : Option (Nat × WStream) :=
  if s.remaining < 3 then none
  else
    some ((s.byteAt 0 ||| ((s.byteAt 1 <<< 8) &&& 0xFF00)) |||
      ((s.byteAt 2 <<< 16) &&& 0xFF0000), s.advance 3)

/-- `update_write_color`: emits the low, middle and high byte in that order. -/
def update_write_color (color : Nat) : List Nat :=
  [color &&& 0xFF, (color >>> 8) &&& 0xFF, (color >>> 16) &&& 0xFF]

/-- `update_read_colorref`: 3 color bytes, low byte first, then one padding
byte that is consumed and discarded. -/
def update_read_colorref (s : WStream) : Option (Nat × WStream) :=
  if s.remaining < 4 then none
  else
    some ((s.byteAt 0 ||| (s.byteAt 1 <<< 8)) ||| (s.byteAt 2 <<< 16), s.advance 4)

/-- `update_read_color_quad` delegates to `update_read_colorref`. -/
def update_read_color_quad (s : WStream) : Option (Nat × WStream) :=
  update_read_colorref s

/-- `update_write_color_quad`: emits the high, middle and low byte in that
order (the reverse of `update_write_color`). -/
def update_write_color_quad (color : Nat) : List Nat :=
  [(color >>> 16) &&& 0xFF, (color >>> 8) &&& 0xFF, color &&& 0xFF]

/-- `ORDER_INFO`: the per-connection primary-order header state; only the
parts the decoders below consult are modelled. -/
structure ORDER_INFO where
  fieldFlags : Nat
  deltaCoordinates : Bool
deriving DecidableEq, Repr

/-- `order_field_flag_is_set`: tests bit `number - 1` of `fieldFlags`. -/
def order_field_flag_is_set (orderInfo : ORDER_INFO) (number : Nat) : Bool :=
  orderInfo.fieldFlags &&& (1 <<< (number - 1)) != 0

/-- `update_read_coord`: in delta mode read one signed byte and add it to the
previous coordinate; otherwise read a 16-bit little-endian signed absolute. -/
def update_read_coord (s : WStream) (coord : Int) (delta : Bool) : Option (Int × WStream) :=
  if delta then
    if s.remaining < 1 then none
    else some (coord + toINT8 (s.byteAt 0), s.advance 1)
  else
    if s.remaining < 2 then none
    else some (toINT16 (s.byteAt 0 + 256 * s.byteAt 1), s.advance 2)

/-- `read_order_field_byte`: keep the persisted value when the presence bit is
clear, otherwise read one byte. -/
def read_order_field_byte (orderInfo : ORDER_INFO) (number : Nat) (target : Nat)
    (s : WStream) : Option (Nat × WStream) :=
  if ¬ order_field_flag_is_set orderInfo number then some (target, s)
  else if s.remaining < 1 then none
  else some (s.byteAt 0, s.advance 1)

/-- `read_order_field_2bytes`: keep both persisted values when the presence
bit is clear, otherwise read two bytes. -/
def read_order_field_2bytes (orderInfo : ORDER_INFO) (number : Nat) (target1 target2 : Nat)
    (s : WStream) : Option ((Nat × Nat) × WStream) :=
  if ¬ order_field_flag_is_set orderInfo number then some ((target1, target2), s)
  else if s.remaining < 2 then none
  else some ((s.byteAt 0, s.byteAt 1), s.advance 2)

/-- `read_order_field_coord`: keep the persisted coordinate when the presence
bit is clear, otherwise decode via `update_read_coord`. -/
def read_order_field_coord (orderInfo : ORDER_INFO) (number : Nat) (target : Int)
    (s : WStream) : Option (Int × WStream) :=
  if ¬ order_field_flag_is_set orderInfo number then some (target, s)
  else update_read_coord s target orderInfo.deltaCoordinates

/-- `read_order_field_color`: keep the persisted color when the presence bit
is clear, otherwise decode via `update_read_color`. -/
def read_order_field_color (orderInfo : ORDER_INFO) (number : Nat) (target : Nat)
    (s : WStream) : Option (Nat × WStream) :=
  if ¬ order_field_flag_is_set orderInfo number then some (target, s)
  else update_read_color s

/-- `DSTBLT_ORDER`: the persisted per-connection DstBlt state. -/
structure DSTBLT_ORDER where
  nLeftRect : Int
  nTopRect : Int
  nWidth : Int
  nHeight : Int
  bRop : Nat
deriving DecidableEq, Repr

/-- `update_read_dstblt_order`: fields 1-4 are coordinates, field 5 is the
raster operation byte, each gated by its presence bit. -/
def update_read_dstblt_order (orderInfo : ORDER_INFO) (dstblt : DSTBLT_ORDER)
    (s : WStream) : Option (DSTBLT_ORDER × WStream) :=
  (read_order_field_coord orderInfo 1 dstblt.nLeftRect s).bind fun p1 =>
  (read_order_field_coord orderInfo 2 dstblt.nTopRect p1.2).bind fun p2 =>
  (read_order_field_coord orderInfo 3 dstblt.nWidth p2.2).bind fun p3 =>
  (read_order_field_coord orderInfo 4 dstblt.nHeight p3.2).bind fun p4 =>
  (read_order_field_byte orderInfo 5 dstblt.bRop p4.2).map fun p5 =>
  ({ nLeftRect := p1.1, nTopRect := p2.1, nWidth := p3.1, nHeight := p4.1,
     bRop := p5.1 }, p5.2)

/-- `FAST_GLYPH_ORDER`: only the persisted `cacheId` matters up to the bound
check; the fields decoded after it are handled by the continuation passed to
`update_read_fast_glyph_order`. -/
structure FAST_GLYPH_ORDER where
  cacheId : Nat
deriving DecidableEq, Repr

/-- `update_read_fast_glyph_order`: field 1 (`cacheId`) is read (or kept from
persisted state), then the decode aborts if the effective `cacheId` exceeds 9
before anything else is read.  The decode of fields 2-15, which follows the
check in the C code, is abstracted as the continuation `rest`. -/
def update_read_fast_glyph_order
    (rest : FAST_GLYPH_ORDER → WStream → Option (FAST_GLYPH_ORDER × WStream))
    (orderInfo : ORDER_INFO) (fastGlyph : FAST_GLYPH_ORDER) (s : WStream) :
    Option (FAST_GLYPH_ORDER × WStream) :=
  (read_order_field_byte orderInfo 1 fastGlyph.cacheId s).bind fun p1 =>
  if p1.1 > 9 then none
  else rest { fastGlyph with cacheId := p1.1 } p1.2

/-- Little-endian 16-bit load at offset `i` past the cursor, mirroring
`Stream_Read_UINT16`. -/
def WStream.u16At (s : WStream) (i : Nat) : Nat := s.byteAt i + 256 * s.byteAt (i + 1)

/-- `OFFSCREEN_DELETE_LIST`: persisted delete list (capacity, count, and the
valid entries). -/
structure OFFSCREEN_DELETE_LIST where
  sIndices : Nat
  cIndices : Nat
  indices : List Nat
deriving DecidableEq, Repr

/-- `CREATE_OFFSCREEN_BITMAP_ORDER`: persisted alternate-secondary state. -/
structure CREATE_OFFSCREEN_BITMAP_ORDER where
  id : Nat
  cx : Nat
  cy : Nat
  deleteList : OFFSCREEN_DELETE_LIST
deriving DecidableEq, Repr

/-- `update_read_create_offscreen_bitmap_order`: 6-byte fixed part (id/flags
word, cx, cy), rejection of zero dimensions, then the optional delete list
gated by bit 0x8000 of the flags word; with the bit clear the persisted count
is reset to 0.  The realloc of the index array is modelled as always
succeeding, and the array as the list of its valid entries. -/
def update_read_create_offscreen_bitmap_order (order : CREATE_OFFSCREEN_BITMAP_ORDER)
    (s : WStream) : Option (CREATE_OFFSCREEN_BITMAP_ORDER × WStream) :=
  if s.remaining < 6 then none
  else
    if s.u16At 2 = 0 ∨ s.u16At 4 = 0 then none
    else if s.u16At 0 &&& 0x8000 != 0 then
      if (s.advance 6).remaining < 2 then none
      else
        if ((s.advance 6).advance 2).remaining < (s.advance 6).u16At 0 * 2 then none
        else
          some ({ id := s.u16At 0 &&& 0x7FFF, cx := s.u16At 2, cy := s.u16At 4,
                  deleteList :=
                    { sIndices := if (s.advance 6).u16At 0 > order.deleteList.sIndices
                        then (s.advance 6).u16At 0 else order.deleteList.sIndices,
                      cIndices := (s.advance 6).u16At 0,
                      indices := (List.range ((s.advance 6).u16At 0)).map fun i =>
                        ((s.advance 6).advance 2).u16At (2 * i) } },
                ((s.advance 6).advance 2).advance ((s.advance 6).u16At 0 * 2))
    else
      some ({ id := s.u16At 0 &&& 0x7FFF, cx := s.u16At 2, cy := s.u16At 4,
              deleteList := { order.deleteList with cIndices := 0 } }, s.advance 6)

/-- `CACHE_COLOR_TABLE_ORDER`: a freshly produced secondary-order value. -/
structure CACHE_COLOR_TABLE_ORDER where
  cacheIndex : Nat
  numberColors : Nat
  colorTable : List Nat
deriving DecidableEq, Repr

/-- The color-quad loop of `update_read_cache_color_table_order`: the C code
ignores each quad's return value, so a failed quad leaves the calloc-zeroed
entry and an unmoved cursor. -/
def read_color_quads : Nat → WStream → List Nat × WStream
  | 0, s => ([], s)
  | n + 1, s =>
    match update_read_color_quad s with
    | some (c, s1) =>
        let r := read_color_quads n s1
        (c :: r.1, r.2)
    | none =>
        let r := read_color_quads n s
        (0 :: r.1, r.2)

/-- `update_read_cache_color_table_order`: cache index byte, 16-bit color
count that must equal 256, then `numberColors` 4-byte color quads. -/
def update_read_cache_color_table_order (s : WStream) :
    Option (CACHE_COLOR_TABLE_ORDER × WStream) :=
  if s.remaining < 3 then none
  else if s.byteAt 1 + 256 * s.byteAt 2 ≠ 256 then none
  else if (s.advance 3).remaining < (s.byteAt 1 + 256 * s.byteAt 2) * 4 then none
  else
    some ({ cacheIndex := s.byteAt 0, numberColors := s.byteAt 1 + 256 * s.byteAt 2,
            colorTable := (read_color_quads (s.byteAt 1 + 256 * s.byteAt 2) (s.advance 3)).1 },
          (read_color_quads (s.byteAt 1 + 256 * s.byteAt 2) (s.advance 3)).2)

/-- `update_recv_secondary_order`: reads the 5-byte secondary header (signed
16-bit `orderLength`, 16-bit `extraFlags`, 8-bit `orderType`), rejects a
negative length, requires `orderLength + 7` further bytes (the MS-RDPEGDI
13-byte adjustment minus the 6 header bytes already consumed), then runs the
subtype decode and compares the cursor with `start + orderLength + 7`:
overshoot fails, undershoot seeks forward to the computed end.  The
`CacheOrderInfo` callback and the capability check are abstracted as the two
boolean parameters; the subtype dispatch as the `dispatch` parameter. -/
def update_recv_secondary_order (cacheOrderInfoOk supported : Bool)
    (dispatch : Nat → Nat → WStream → Bool × WStream) (s : WStream) : Option WStream :=
  if s.remaining < 5 then none
  else if ¬ cacheOrderInfoOk then none
  else if toINT16 (s.u16At 0) < 0 then none
  else if (s.advance 5).remaining < s.u16At 0 + 7 then none
  else if ¬ supported then none
  else
    let r := dispatch (s.u16At 2) (s.byteAt 4) (s.advance 5)
    if (s.advance 5).pos + (s.u16At 0 + 7) < r.2.pos then none
    else if 0 < (s.advance 5).pos + (s.u16At 0 + 7) - r.2.pos then
      if r.2.remaining < (s.advance 5).pos + (s.u16At 0 + 7) - r.2.pos then none
      else if r.1 then some (r.2.advance ((s.advance 5).pos + (s.u16At 0 + 7) - r.2.pos))
      else none
    else if r.1 then some r.2 else none

/-- Little-endian 32-bit load at offset `i` past the cursor, mirroring
`Stream_Read_UINT32`. -/
def WStream.u32At (s : WStream) (i : Nat) : Nat :=
  s.byteAt i + 256 * s.byteAt (i + 1) + 65536 * s.byteAt (i + 2) +
    16777216 * s.byteAt (i + 3)

/-- Raw copy of `n` bytes from the cursor, mirroring `Stream_Read` into a
malloc buffer. -/
def WStream.bytes (s : WStream) (n : Nat) : List Nat :=
  (List.range n).map s.byteAt

/-- `update_read_4byte_unsigned`: the top 2 bits of the first byte select 0-3
extra bytes; the remaining 6 bits plus the extra bytes (high first) form the
value.  The extra-byte count can only be 0-3, so the final case is count 3. -/
def update_read_4byte_unsigned (s : WStream) : Option (Nat × WStream) :=
  if s.remaining < 1 then none
  else
    if (s.advance 1).remaining < (s.byteAt 0 &&& 0xC0) >>> 6 then none
    else
      match (s.byteAt 0 &&& 0xC0) >>> 6 with
      | 0 => some (s.byteAt 0 &&& 0x3F, s.advance 1)
      | 1 => some ((((s.byteAt 0 &&& 0x3F) <<< 8) &&& 0xFFFF) ||| s.byteAt 1, s.advance 2)
      | 2 => some (((((s.byteAt 0 &&& 0x3F) <<< 16) &&& 0xFFFFFF) |||
          ((s.byteAt 1 <<< 8) &&& 0xFFFF)) ||| s.byteAt 2, s.advance 3)
      | _ => some ((((((s.byteAt 0 &&& 0x3F) <<< 24) &&& 0xFF000000) |||
          ((s.byteAt 1 <<< 16) &&& 0xFF0000)) |||
          ((s.byteAt 2 <<< 8) &&& 0xFF00)) ||| s.byteAt 3, s.advance 4)

/-- `get_cbr2_bpp`: the 4-value Cache Bitmap v2 bpp code table. `none` models
the C `pValid = FALSE` path. -/
def get_cbr2_bpp (bpp : Nat) : Option Nat :=
  match bpp with
  | 3 => some 8
  | 4 => some 16
  | 5 => some 24
  | 6 => some 32
  | _ => none

/-- Modelled from the spec: the Cache Bitmap v2 per-order flag bits
(persistent-key-present, height-equals-width, do-not-cache,
no-compression-header); the header defining the numeric values is not part of
the sources, so the MS-RDPEGDI values are used. -/
def CBR2_HEIGHT_SAME_AS_WIDTH : Nat := 0x01

/-- Modelled from the spec: see `CBR2_HEIGHT_SAME_AS_WIDTH`. -/
def CBR2_PERSISTENT_KEY_PRESENT : Nat := 0x02

/-- Modelled from the spec: see `CBR2_HEIGHT_SAME_AS_WIDTH`. -/
def CBR2_NO_BITMAP_COMPRESSION_HDR : Nat := 0x08

/-- Modelled from the spec: see `CBR2_HEIGHT_SAME_AS_WIDTH`. -/
def CBR2_DO_NOT_CACHE : Nat := 0x10

/-- Modelled from the spec: the sentinel waiting-list cache index forced by
the do-not-cache flag; numeric value from MS-RDPBCGR. -/
def BITMAP_CACHE_WAITING_LIST_INDEX : Nat := 0x7FFF

/-- `CACHE_BITMAP_V2_ORDER`: a freshly allocated secondary-order value. -/
structure CACHE_BITMAP_V2_ORDER where
  cacheId : Nat
  flags : Nat
  bitmapBpp : Nat
  key1 : Nat
  key2 : Nat
  bitmapWidth : Nat
  bitmapHeight : Nat
  bitmapLength : Nat
  cacheIndex : Nat
  cbCompFirstRowSize : Nat
  cbCompMainBodySize : Nat
  cbScanWidth : Nat
  cbUncompressedSize : Nat
  bitmapDataStream : List Nat
  compressed : Bool
deriving DecidableEq, Repr

/-- `update_read_cache_bitmap_v2_order`: `extraFlags` is bit-packed (bits 0-1
cache id, bits 3-6 the bpp code, bits 7-15 the flag bits); keys, width/height,
length and index follow with the variable-length schemes; a compression
header may replace the declared length; a zero length or a short payload
fails. -/
def update_read_cache_bitmap_v2_order (compressed : Bool) (flags : Nat) (s : WStream) :
    Option (CACHE_BITMAP_V2_ORDER × WStream) :=
  match get_cbr2_bpp ((flags &&& 0x0078) >>> 3) with
  | none => none
  | some bitmapBpp =>
    (if ((flags &&& 0xFF80) >>> 7) &&& CBR2_PERSISTENT_KEY_PRESENT ≠ 0 then
        if s.remaining < 8 then none
        else some ((s.u32At 0, s.u32At 4), s.advance 8)
      else some ((0, 0), s)).bind fun pk =>
    (if ((flags &&& 0xFF80) >>> 7) &&& CBR2_HEIGHT_SAME_AS_WIDTH ≠ 0 then
        (update_read_2byte_unsigned pk.2).map fun pw => ((pw.1, pw.1), pw.2)
      else
        (update_read_2byte_unsigned pk.2).bind fun pw =>
        (update_read_2byte_unsigned pw.2).map fun ph => ((pw.1, ph.1), ph.2)).bind fun pwh =>
    (update_read_4byte_unsigned pwh.2).bind fun plen =>
    (update_read_2byte_unsigned plen.2).bind fun pidx =>
    (if compressed ∧ ((flags &&& 0xFF80) >>> 7) &&& CBR2_NO_BITMAP_COMPRESSION_HDR = 0 then
        if pidx.2.remaining < 8 then none
        else some ((pidx.2.u16At 0, pidx.2.u16At 2, pidx.2.u16At 4, pidx.2.u16At 6,
          pidx.2.u16At 2), pidx.2.advance 8)
      else some ((0, 0, 0, 0, plen.1), pidx.2)).bind fun pc =>
    if pc.1.2.2.2.2 = 0 then none
    else if pc.2.remaining < pc.1.2.2.2.2 then none
    else if pc.1.2.2.2.2 = 0 then none
    else
      some ({ cacheId := flags &&& 0x0003, flags := (flags &&& 0xFF80) >>> 7,
              bitmapBpp := bitmapBpp, key1 := pk.1.1, key2 := pk.1.2,
              bitmapWidth := pwh.1.1, bitmapHeight := pwh.1.2,
              bitmapLength := pc.1.2.2.2.2,
              cacheIndex := if ((flags &&& 0xFF80) >>> 7) &&& CBR2_DO_NOT_CACHE ≠ 0
                then BITMAP_CACHE_WAITING_LIST_INDEX else pidx.1,
              cbCompFirstRowSize := pc.1.1, cbCompMainBodySize := pc.1.2.1,
              cbScanWidth := pc.1.2.2.1, cbUncompressedSize := pc.1.2.2.2.1,
              bitmapDataStream := pc.2.bytes pc.1.2.2.2.2, compressed := compressed },
            pc.2.advance pc.1.2.2.2.2)

/-- `DELTA_RECT`: one decoded rectangle of a delta-rectangle array. -/
structure DELTA_RECT where
  left : Int
  top : Int
  width : Int
  height : Int
deriving DecidableEq, Repr

/-- `update_read_delta`: one byte whose bit 0x40 one-extends the low 6 bits
into a negative `UINT32` pattern; bit 0x80 appends a continuation byte below
the first byte's bits (with `UINT32` truncation on the shift); the result is
reinterpreted as `INT32`. -/
def update_read_delta (s : WStream) : Option (Int × WStream) :=
  if s.remaining < 1 then none
  else
    if s.byteAt 0 &&& 0x80 ≠ 0 then
      if (s.advance 1).remaining < 1 then none
      else
        some (toINT32 ((((if s.byteAt 0 &&& 0x40 ≠ 0 then 0xFFFFFFC0 ||| s.byteAt 0
            else s.byteAt 0 &&& 0x3F) <<< 8) &&& 0xFFFFFFFF) ||| s.byteAt 1), s.advance 2)
    else
      some (toINT32 (if s.byteAt 0 &&& 0x40 ≠ 0 then 0xFFFFFFC0 ||| s.byteAt 0
        else s.byteAt 0 &&& 0x3F), s.advance 1)

/-- One entry of the delta-rectangle loop: the effective zero-bits nibble is
`zb (i / 2)` for even `i` and the carried `flags` for odd `i`; left and top
are read when their zero bit is clear (else the `ZeroMemory` value 0 remains),
width and height are read when their zero bit is clear and otherwise inherit
the previous entry's value (0 for entry 0).  Left and top are still the raw
per-entry deltas here. -/
def read_delta_rect_fields (zb : Nat → Nat) (i flags : Nat) (prevW prevH : Int)
    (s : WStream) : Option (DELTA_RECT × WStream) :=
  ((if (if i % 2 = 0 then zb (i / 2) else flags) &&& 0x80 = 0 then update_read_delta s
    else some (0, s)).bind fun pl =>
  (if (if i % 2 = 0 then zb (i / 2) else flags) &&& 0x40 = 0 then update_read_delta pl.2
    else some (0, pl.2)).bind fun pt =>
  (if (if i % 2 = 0 then zb (i / 2) else flags) &&& 0x20 = 0 then update_read_delta pt.2
    else some (if 0 < i then prevW else 0, pt.2)).bind fun pw =>
  (if (if i % 2 = 0 then zb (i / 2) else flags) &&& 0x10 = 0 then update_read_delta pw.2
    else some (if 0 < i then prevH else 0, pw.2)).map fun ph =>
  (({ left := pl.1, top := pt.1, width := pw.1, height := ph.1 } : DELTA_RECT), ph.2))

/-- The entry loop of `update_read_delta_rects`: entry `i`'s left/top are the
previous entry's plus the raw deltas, and the nibble flags shift by 4 (as a
byte) between the two entries sharing a zero-bits byte. -/
def update_read_delta_rects_loop (zb : Nat → Nat) :
    Nat → Nat → Nat → DELTA_RECT → WStream → Option (List DELTA_RECT × WStream)
  | _, 0, _, _, s => some ([], s)
  | i, todo + 1, flags, prev, s =>
    (read_delta_rect_fields zb i flags prev.width prev.height s).bind fun p =>
    (update_read_delta_rects_loop zb (i + 1) todo
        (((if i % 2 = 0 then zb (i / 2) else flags) <<< 4) % 256)
        { p.1 with left := if 0 < i then p.1.left + prev.left else p.1.left,
                   top := if 0 < i then p.1.top + prev.top else p.1.top } p.2).map fun pr =>
      (({ p.1 with left := if 0 < i then p.1.left + prev.left else p.1.left,
                   top := if 0 < i then p.1.top + prev.top else p.1.top }) :: pr.1, pr.2)

/-- Reference loop for stating the cumulative-delta law: identical reads, but
the left/top deltas are kept raw instead of being accumulated. -/
def update_read_delta_rects_raw_loop (zb : Nat → Nat) :
    Nat → Nat → Nat → DELTA_RECT → WStream → Option (List DELTA_RECT × WStream)
  | _, 0, _, _, s => some ([], s)
  | i, todo + 1, flags, prev, s =>
    (read_delta_rect_fields zb i flags prev.width prev.height s).bind fun p =>
    (update_read_delta_rects_raw_loop zb (i + 1) todo
        (((if i % 2 = 0 then zb (i / 2) else flags) <<< 4) % 256) p.1 p.2).map fun pr =>
      (p.1 :: pr.1, pr.2)

/-- `update_read_delta_rects`: at most 45 rectangles, a packed zero-bits
header of `(number + 1) / 2` bytes, then the entry loop over the seeked
stream. -/
def update_read_delta_rects (number : Nat) (s : WStream) :
    Option (List DELTA_RECT × WStream) :=
  if 45 < number then none
  else if s.remaining < (number + 1) / 2 then none
  else update_read_delta_rects_loop s.byteAt 0 number 0 ⟨0, 0, 0, 0⟩
    (s.advance ((number + 1) / 2))

/-- Reference decode: `update_read_delta_rects` with raw (unaccumulated)
left/top deltas, used to state the running-sum law. -/
def update_read_delta_rects_raw (number : Nat) (s : WStream) :
    Option (List DELTA_RECT × WStream) :=
  if 45 < number then none
  else if s.remaining < (number + 1) / 2 then none
  else update_read_delta_rects_raw_loop s.byteAt 0 number 0 ⟨0, 0, 0, 0⟩
    (s.advance ((number + 1) / 2))

/-- The accumulation that turns raw per-entry deltas into absolute left/top
positions (entry 0 keeps its values when the base index is 0). -/
def accumRects (prev : DELTA_RECT) : Nat → List DELTA_RECT → List DELTA_RECT
  | _, [] => []
  | i, r :: rs =>
    ({ r with left := if 0 < i then r.left + prev.left else r.left,
              top := if 0 < i then r.top + prev.top else r.top }) ::
      accumRects { r with left := if 0 < i then r.left + prev.left else r.left,
                          top := if 0 < i then r.top + prev.top else r.top } (i + 1) rs

/-- `MULTI_DSTBLT_ORDER`: persisted per-connection MultiDstBlt state. -/
structure MULTI_DSTBLT_ORDER where
  nLeftRect : Int
  nTopRect : Int
  nWidth : Int
  nHeight : Int
  bRop : Nat
  numRectangles : Nat
  cbData : Nat
  rectangles : List DELTA_RECT
deriving DecidableEq, Repr

/-- Fields 1-6 of MultiDstBlt (four coordinates, the rop byte, and the
rectangle count byte); rectangles, count and `cbData` stay persisted. -/
def update_read_multi_dstblt_fields (orderInfo : ORDER_INFO) (m : MULTI_DSTBLT_ORDER)
    (s : WStream) : Option ((MULTI_DSTBLT_ORDER × Nat) × WStream) :=
  (read_order_field_coord orderInfo 1 m.nLeftRect s).bind fun p1 =>
  (read_order_field_coord orderInfo 2 m.nTopRect p1.2).bind fun p2 =>
  (read_order_field_coord orderInfo 3 m.nWidth p2.2).bind fun p3 =>
  (read_order_field_coord orderInfo 4 m.nHeight p3.2).bind fun p4 =>
  (read_order_field_byte orderInfo 5 m.bRop p4.2).bind fun p5 =>
  (read_order_field_byte orderInfo 6 m.numRectangles p5.2).map fun p6 =>
  (({ m with nLeftRect := p1.1, nTopRect := p2.1, nWidth := p3.1, nHeight := p4.1,
             bRop := p5.1 }, p6.1), p6.2)

/-- `update_read_multi_dstblt_order`: after the fields, presence bit 7 gates
the 2-byte `cbData` plus the delta-rectangle array (which overwrites the first
`numRectangles` persisted entries); with the bit clear the persisted array is
kept and the new count must not exceed the persisted one. -/
def update_read_multi_dstblt_order (orderInfo : ORDER_INFO) (m : MULTI_DSTBLT_ORDER)
    (s : WStream) : Option (MULTI_DSTBLT_ORDER × WStream) :=
  (update_read_multi_dstblt_fields orderInfo m s).bind fun pf =>
  if orderInfo.fieldFlags &&& 0x40 ≠ 0 then
    if pf.2.remaining < 2 then none
    else
      (update_read_delta_rects pf.1.2 (pf.2.advance 2)).map fun pr =>
        ({ pf.1.1 with numRectangles := pf.1.2, cbData := pf.2.u16At 0,
                       rectangles := pr.1 ++ m.rectangles.drop pf.1.2 }, pr.2)
  else
    if pf.1.1.numRectangles < pf.1.2 then none
    else some ({ pf.1.1 with numRectangles := pf.1.2 }, pf.2)

/-- `MULTI_SCRBLT_ORDER`: persisted per-connection MultiScrBlt state. -/
structure MULTI_SCRBLT_ORDER where
  nLeftRect : Int
  nTopRect : Int
  nWidth : Int
  nHeight : Int
  bRop : Nat
  nXSrc : Int
  nYSrc : Int
  numRectangles : Nat
  cbData : Nat
  rectangles : List DELTA_RECT
deriving DecidableEq, Repr

/-- Fields 1-8 of MultiScrBlt (coordinates, rop byte, source coordinates, and
the rectangle count byte). -/
def update_read_multi_scrblt_fields (orderInfo : ORDER_INFO) (m : MULTI_SCRBLT_ORDER)
    (s : WStream) : Option ((MULTI_SCRBLT_ORDER × Nat) × WStream) :=
  (read_order_field_coord orderInfo 1 m.nLeftRect s).bind fun p1 =>
  (read_order_field_coord orderInfo 2 m.nTopRect p1.2).bind fun p2 =>
  (read_order_field_coord orderInfo 3 m.nWidth p2.2).bind fun p3 =>
  (read_order_field_coord orderInfo 4 m.nHeight p3.2).bind fun p4 =>
  (read_order_field_byte orderInfo 5 m.bRop p4.2).bind fun p5 =>
  (read_order_field_coord orderInfo 6 m.nXSrc p5.2).bind fun p6 =>
  (read_order_field_coord orderInfo 7 m.nYSrc p6.2).bind fun p7 =>
  (read_order_field_byte orderInfo 8 m.numRectangles p7.2).map fun p8 =>
  (({ m with nLeftRect := p1.1, nTopRect := p2.1, nWidth := p3.1, nHeight := p4.1,
             bRop := p5.1, nXSrc := p6.1, nYSrc := p7.1 }, p8.1), p8.2)

/-- `update_read_multi_scrblt_order`: same framing as MultiDstBlt with the
extended-data presence bit 9. -/
def update_read_multi_scrblt_order (orderInfo : ORDER_INFO) (m : MULTI_SCRBLT_ORDER)
    (s : WStream) : Option (MULTI_SCRBLT_ORDER × WStream) :=
  (update_read_multi_scrblt_fields orderInfo m s).bind fun pf =>
  if orderInfo.fieldFlags &&& 0x100 ≠ 0 then
    if pf.2.remaining < 2 then none
    else
      (update_read_delta_rects pf.1.2 (pf.2.advance 2)).map fun pr =>
        ({ pf.1.1 with numRectangles := pf.1.2, cbData := pf.2.u16At 0,
                       rectangles := pr.1 ++ m.rectangles.drop pf.1.2 }, pr.2)
  else
    if pf.1.1.numRectangles < pf.1.2 then none
    else some ({ pf.1.1 with numRectangles := pf.1.2 }, pf.2)

/-- Default rectangle used with `List.getD`. -/
def dRect0 : DELTA_RECT := ⟨0, 0, 0, 0⟩

/-- The effective zero-bits nibble of entry `i`: the high nibble of byte
`i / 2` for even `i`, shifted into test position for odd `i`. -/
def rectZeroFlags (zb : Nat → Nat) (i : Nat) : Nat :=
  if i % 2 = 0 then zb (i / 2) else (zb (i / 2) <<< 4) % 256

/-- Masking with a left-shifted mask selects the shifted bit window. -/
theorem and_shiftLeft_mask (x m k : Nat) : x &&& (m <<< k) = ((x >>> k) &&& m) <<< k := by
  apply Nat.eq_of_testBit_eq
  intro i
  by_cases h : k ≤ i
  · have hi : k + (i - k) = i := Nat.add_sub_cancel' h
    simp [Nat.testBit_and, Nat.testBit_shiftLeft, Nat.testBit_shiftRight, h, hi]
  · simp [Nat.testBit_and, Nat.testBit_shiftLeft, h]

/-- Masking with `0x7F` is reduction modulo 128. -/
theorem and_0x7F (x : Nat) : x &&& 0x7F = x % 128 := by
  have h : (0x7F : Nat) = 2 ^ 7 - 1 := by norm_num
  rw [h, Nat.and_pow_two_sub_one_eq_mod]

/-- Masking with `0xFF` is reduction modulo 256. -/
theorem and_0xFF (x : Nat) : x &&& 0xFF = x % 256 := by
  have h : (0xFF : Nat) = 2 ^ 8 - 1 := by norm_num
  rw [h, Nat.and_pow_two_sub_one_eq_mod]

/-- Masking with `0xFFFF` is reduction modulo 65536. -/
theorem and_0xFFFF (x : Nat) : x &&& 0xFFFF = x % 65536 := by
  have h : (0xFFFF : Nat) = 2 ^ 16 - 1 := by norm_num
  rw [h, Nat.and_pow_two_sub_one_eq_mod]

/-- Masking with `0x7F00` keeps bits 8-14. -/
theorem and_0x7F00 (x : Nat) : x &&& 0x7F00 = (x / 256 % 128) * 256 := by
  have h : (0x7F00 : Nat) = 0x7F <<< 8 := by decide
  rw [h, and_shiftLeft_mask, Nat.shiftRight_eq_div_pow, and_0x7F, Nat.shiftLeft_eq]

/-- Masking with `0x80` extracts bit 7. -/
theorem and_0x80 (x : Nat) : x &&& 0x80 = (x / 128 % 2) * 128 := by
  have h : (0x80 : Nat) = 2 ^ 7 := by norm_num
  rw [h, Nat.and_two_pow, Nat.testBit_to_div_mod]
  rcases Nat.mod_two_eq_zero_or_one (x / 2 ^ 7) with h2 | h2 <;>
    · norm_num at h2 ⊢
      simp [h2]

/-- Setting bit 7 on a value below 128 adds 128. -/
theorem or_0x80 (x : Nat) (h : x < 128) : x ||| 0x80 = x + 128 := by
  have h2 := Nat.mul_add_lt_is_or (i := 7) (b := x) (by norm_num [h]) 1
  rw [Nat.lor_comm]
  norm_num at h2 ⊢
  omega

/-- Disjoint or of a 256-multiple and a byte is addition. -/
theorem or_low (a b : Nat) (hb : b < 256) : (a * 256) ||| b = a * 256 + b := by
  have h2 := Nat.mul_add_lt_is_or (i := 8) (b := b) (by norm_num [hb]) a
  norm_num at h2 ⊢
  rw [Nat.mul_comm a 256]
  omega

/-- C4: for every `v ≤ 0x7FFF` the writer succeeds, with exactly one byte for
`v ≤ 0x7E` and exactly two bytes for `0x7F ≤ v ≤ 0x7FFF`, and reading back the
written bytes returns exactly `v`; for every `v > 0x7FFF` the writer fails. -/
theorem two_byte_unsigned_roundtrip :
    (∀ v : Nat, v < 0x8000 →
      (update_write_2byte_unsigned v).map List.length
          = some (if v ≤ 0x7E then 1 else 2) ∧
      (update_write_2byte_unsigned v).bind (fun bs => update_read_2byte_unsigned ⟨bs, 0⟩)
          = (update_write_2byte_unsigned v).map (fun bs => (v, ⟨bs, bs.length⟩))) ∧
    (∀ v : Nat, 0x7FFF < v → update_write_2byte_unsigned v = none) := by
  constructor
  · intro v hv
    by_cases h1 : 0x7F ≤ v
    · have hb1 : ((v &&& 0x7F00) >>> 8) ||| 0x80 = v / 256 + 128 := by
        rw [and_0x7F00, Nat.shiftRight_eq_div_pow]
        norm_num
        rw [or_0x80 _ (Nat.mod_lt _ (by norm_num))]
        omega
      have hw : update_write_2byte_unsigned v = some [v / 256 + 128, v % 256] := by
        unfold update_write_2byte_unsigned
        rw [if_neg (by omega), if_pos h1, hb1, and_0xFF]
      have hr : update_read_2byte_unsigned ⟨[v / 256 + 128, v % 256], 0⟩
          = some (v, ⟨[v / 256 + 128, v % 256], 2⟩) := by
        unfold update_read_2byte_unsigned
        simp only [WStream.remaining, WStream.byteAt, WStream.advance, List.length]
        rw [if_neg (by simp)]
        have hg0 : ([v / 256 + 128, v % 256].getD (0 + 0) 0) = v / 256 + 128 := rfl
        have hg1 : ([v / 256 + 128, v % 256].getD (0 + 1) 0) = v % 256 := rfl
        have hx0 : (v / 256 + 128) % 256 = v / 256 + 128 := Nat.mod_eq_of_lt (by omega)
        have hx1 : (v % 256) % 256 = v % 256 := Nat.mod_eq_of_lt (by omega)
        rw [hg0, hg1, hx0, hx1]
        rw [if_pos (by rw [and_0x80]; omega)]
        rw [if_neg (by simp)]
        have hhi : (((v / 256 + 128) &&& 0x7F) <<< 8) &&& 0xFFFF = (v / 256) * 256 := by
          rw [and_0x7F, Nat.shiftLeft_eq, and_0xFFFF]
          norm_num
          omega
        rw [hhi, or_low _ _ (Nat.mod_lt _ (by norm_num))]
        have hvv : (v / 256) * 256 + v % 256 = v := by omega
        rw [hvv]
      rw [hw]
      refine ⟨by simp [if_neg (by omega : ¬ v ≤ 0x7E)], ?_⟩
      simp only [Option.bind, Option.map]
      rw [hr]
      simp
    · have hw : update_write_2byte_unsigned v = some [v] := by
        unfold update_write_2byte_unsigned
        rw [if_neg (by omega), if_neg (by omega), and_0x7F, Nat.mod_eq_of_lt (by omega)]
      have hr : update_read_2byte_unsigned ⟨[v], 0⟩ = some (v, ⟨[v], 1⟩) := by
        unfold update_read_2byte_unsigned
        simp only [WStream.remaining, WStream.byteAt, WStream.advance, List.length]
        rw [if_neg (by simp)]
        have hg0 : ([v].getD (0 + 0) 0) = v := rfl
        have hx0 : v % 256 = v := Nat.mod_eq_of_lt (by omega)
        rw [hg0, hx0]
        rw [if_neg (by rw [and_0x80]; omega)]
        rw [and_0x7F, Nat.mod_eq_of_lt (by omega)]
      rw [hw]
      refine ⟨by simp [if_pos (by omega : v ≤ 0x7E)], ?_⟩
      simp only [Option.bind, Option.map]
      rw [hr]
      simp
  · intro v hv
    simp [update_write_2byte_unsigned, hv]

/-- C4 witness: concrete instances at the 1-byte/2-byte boundary and above the
maximum. -/
theorem two_byte_unsigned_roundtrip_witness :
    ((update_write_2byte_unsigned 0x7E).map List.length
        = some (if 0x7E ≤ 0x7E then 1 else 2) ∧
      (update_write_2byte_unsigned 0x7E).bind (fun bs => update_read_2byte_unsigned ⟨bs, 0⟩)
        = (update_write_2byte_unsigned 0x7E).map (fun bs => (0x7E, ⟨bs, bs.length⟩))) ∧
    update_write_2byte_unsigned 0x8000 = none :=
  ⟨two_byte_unsigned_roundtrip.1 0x7E (by decide),
   two_byte_unsigned_roundtrip.2 0x8000 (by decide)⟩

/-- A shifted byte is unchanged by the matching byte-window mask. -/
theorem shl8_and_FF00 (b : Nat) (hb : b < 256) : (b <<< 8) &&& 0xFF00 = b <<< 8 := by
  have h : (0xFF00 : Nat) = 0xFF <<< 8 := by decide
  rw [h, and_shiftLeft_mask, Nat.shiftLeft_eq, Nat.shiftLeft_eq, Nat.shiftRight_eq_div_pow,
    Nat.mul_div_cancel _ (by norm_num), and_0xFF, Nat.mod_eq_of_lt hb]

/-- A byte shifted to bits 16-23 is unchanged by the matching mask. -/
theorem shl16_and_FF0000 (b : Nat) (hb : b < 256) : (b <<< 16) &&& 0xFF0000 = b <<< 16 := by
  have h : (0xFF0000 : Nat) = 0xFF <<< 16 := by decide
  rw [h, and_shiftLeft_mask, Nat.shiftLeft_eq, Nat.shiftLeft_eq, Nat.shiftRight_eq_div_pow,
    Nat.mul_div_cancel _ (by norm_num), and_0xFF, Nat.mod_eq_of_lt hb]

/-- Every stream cell is an octet. -/
theorem WStream.byteAt_lt (s : WStream) (i : Nat) : s.byteAt i < 256 :=
  Nat.mod_lt _ (by norm_num)

/-- C7 counterexample: on input bytes 1,2,3 (plus a quad padding byte),
`update_read_color_quad` returns the very same value as `update_read_color`,
not the value with the first and third byte swapped. -/
theorem color_quad_claim_counterexample :
    update_read_color ⟨[1, 2, 3, 0], 0⟩ = some (0x030201, ⟨[1, 2, 3, 0], 3⟩) ∧
    update_read_color_quad ⟨[1, 2, 3, 0], 0⟩ = some (0x030201, ⟨[1, 2, 3, 0], 4⟩) ∧
    (0x030201 : Nat) ≠ 0x010203 := by
  refine ⟨by decide, by decide, by decide⟩

/-- C7 (amended): for the same 3 leading input bytes the reader
`update_read_color_quad` returns exactly the value of `update_read_color`
(consuming one extra padding byte); the reverse (B,G,R versus R,G,B) byte
order distinguishes only the writers, `update_write_color_quad` emitting the
bytes of `update_write_color` in reverse. -/
theorem color_quad_reader_writer :
    (∀ s : WStream, 4 ≤ s.remaining →
      update_read_color s = some ((s.byteAt 0 ||| (s.byteAt 1 <<< 8)) ||| (s.byteAt 2 <<< 16),
        s.advance 3) ∧
      update_read_color_quad s = some ((s.byteAt 0 ||| (s.byteAt 1 <<< 8)) ||| (s.byteAt 2 <<< 16),
        s.advance 4)) ∧
    (∀ c : Nat, update_write_color_quad c = (update_write_color c).reverse) := by
  constructor
  · intro s h
    constructor
    · unfold update_read_color
      rw [if_neg (by omega), shl8_and_FF00 _ (s.byteAt_lt 1), shl16_and_FF0000 _ (s.byteAt_lt 2)]
    · unfold update_read_color_quad update_read_colorref
      rw [if_neg (by omega)]
  · intro c
    simp [update_write_color, update_write_color_quad]

/-- C7 witness: the reader agreement applied to a concrete 4-byte stream. -/
theorem color_quad_reader_writer_witness :
    update_read_color ⟨[9, 8, 7, 6], 0⟩
        = some (((WStream.mk [9, 8, 7, 6] 0).byteAt 0 |||
            ((WStream.mk [9, 8, 7, 6] 0).byteAt 1 <<< 8)) |||
            ((WStream.mk [9, 8, 7, 6] 0).byteAt 2 <<< 16), (WStream.mk [9, 8, 7, 6] 0).advance 3) ∧
    update_read_color_quad ⟨[9, 8, 7, 6], 0⟩
        = some (((WStream.mk [9, 8, 7, 6] 0).byteAt 0 |||
            ((WStream.mk [9, 8, 7, 6] 0).byteAt 1 <<< 8)) |||
            ((WStream.mk [9, 8, 7, 6] 0).byteAt 2 <<< 16), (WStream.mk [9, 8, 7, 6] 0).advance 4) :=
  color_quad_reader_writer.1 ⟨[9, 8, 7, 6], 0⟩ (by decide)

/-- A field read with a clear presence bit returns the persisted coordinate. -/
theorem read_order_field_coord_not_set (orderInfo : ORDER_INFO) (number : Nat) (target : Int)
    (s : WStream) (h : orderInfo.fieldFlags &&& (1 <<< (number - 1)) = 0) :
    read_order_field_coord orderInfo number target s = some (target, s) := by
  simp [read_order_field_coord, order_field_flag_is_set, h]

/-- A field read with a clear presence bit returns the persisted byte. -/
theorem read_order_field_byte_not_set (orderInfo : ORDER_INFO) (number : Nat) (target : Nat)
    (s : WStream) (h : orderInfo.fieldFlags &&& (1 <<< (number - 1)) = 0) :
    read_order_field_byte orderInfo number target s = some (target, s) := by
  simp [read_order_field_byte, order_field_flag_is_set, h]

/-- C1: during DstBlt decode a field of the persisted state is overwritten
only if its presence bit is set in `fieldFlags`: every field whose bit is
clear keeps its previous value, and with `fieldFlags = 0` the whole state is
returned untouched (so a second DstBlt with no presence bits keeps every value
left by the first). -/
theorem dstblt_differential_state (orderInfo : ORDER_INFO) (d : DSTBLT_ORDER) (s : WStream)
    (out : DSTBLT_ORDER × WStream) (h : update_read_dstblt_order orderInfo d s = some out) :
    (orderInfo.fieldFlags &&& 0x01 = 0 → out.1.nLeftRect = d.nLeftRect) ∧
    (orderInfo.fieldFlags &&& 0x02 = 0 → out.1.nTopRect = d.nTopRect) ∧
    (orderInfo.fieldFlags &&& 0x04 = 0 → out.1.nWidth = d.nWidth) ∧
    (orderInfo.fieldFlags &&& 0x08 = 0 → out.1.nHeight = d.nHeight) ∧
    (orderInfo.fieldFlags &&& 0x10 = 0 → out.1.bRop = d.bRop) ∧
    (orderInfo.fieldFlags = 0 → out = (d, s)) := by
  unfold update_read_dstblt_order at h
  cases h1 : read_order_field_coord orderInfo 1 d.nLeftRect s with
  | none => rw [h1] at h; simp at h
  | some p1 =>
  rw [h1] at h
  simp only [Option.some_bind] at h
  cases h2 : read_order_field_coord orderInfo 2 d.nTopRect p1.2 with
  | none => rw [h2] at h; simp at h
  | some p2 =>
  rw [h2] at h
  simp only [Option.some_bind] at h
  cases h3 : read_order_field_coord orderInfo 3 d.nWidth p2.2 with
  | none => rw [h3] at h; simp at h
  | some p3 =>
  rw [h3] at h
  simp only [Option.some_bind] at h
  cases h4 : read_order_field_coord orderInfo 4 d.nHeight p3.2 with
  | none => rw [h4] at h; simp at h
  | some p4 =>
  rw [h4] at h
  simp only [Option.some_bind] at h
  cases h5 : read_order_field_byte orderInfo 5 d.bRop p4.2 with
  | none => rw [h5] at h; simp at h
  | some p5 =>
  rw [h5] at h
  simp only [Option.map_some'] at h
  have hout := Option.some_inj.mp h
  refine ⟨?_, ?_, ?_, ?_, ?_, ?_⟩
  · intro hbit
    have e := read_order_field_coord_not_set orderInfo 1 d.nLeftRect s (by simpa using hbit)
    rw [e] at h1
    have hp := Option.some_inj.mp h1
    rw [← hout, ← hp]
  · intro hbit
    have e := read_order_field_coord_not_set orderInfo 2 d.nTopRect p1.2 (by simpa using hbit)
    rw [e] at h2
    have hp := Option.some_inj.mp h2
    rw [← hout, ← hp]
  · intro hbit
    have e := read_order_field_coord_not_set orderInfo 3 d.nWidth p2.2 (by simpa using hbit)
    rw [e] at h3
    have hp := Option.some_inj.mp h3
    rw [← hout, ← hp]
  · intro hbit
    have e := read_order_field_coord_not_set orderInfo 4 d.nHeight p3.2 (by simpa using hbit)
    rw [e] at h4
    have hp := Option.some_inj.mp h4
    rw [← hout, ← hp]
  · intro hbit
    have e := read_order_field_byte_not_set orderInfo 5 d.bRop p4.2 (by simpa using hbit)
    rw [e] at h5
    have hp := Option.some_inj.mp h5
    rw [← hout, ← hp]
  · intro hzero
    have b1 : orderInfo.fieldFlags &&& (1 <<< (1 - 1)) = 0 := by simp [hzero]
    have b2 : orderInfo.fieldFlags &&& (1 <<< (2 - 1)) = 0 := by simp [hzero]
    have b3 : orderInfo.fieldFlags &&& (1 <<< (3 - 1)) = 0 := by simp [hzero]
    have b4 : orderInfo.fieldFlags &&& (1 <<< (4 - 1)) = 0 := by simp [hzero]
    have b5 : orderInfo.fieldFlags &&& (1 <<< (5 - 1)) = 0 := by simp [hzero]
    rw [read_order_field_coord_not_set _ _ _ _ b1] at h1
    have e1 := Option.some_inj.mp h1.symm
    rw [e1] at h2
    rw [read_order_field_coord_not_set _ _ _ _ b2] at h2
    have e2 := Option.some_inj.mp h2.symm
    rw [e2] at h3
    rw [read_order_field_coord_not_set _ _ _ _ b3] at h3
    have e3 := Option.some_inj.mp h3.symm
    rw [e3] at h4
    rw [read_order_field_coord_not_set _ _ _ _ b4] at h4
    have e4 := Option.some_inj.mp h4.symm
    rw [e4] at h5
    rw [read_order_field_byte_not_set _ _ _ _ b5] at h5
    have e5 := Option.some_inj.mp h5.symm
    rw [← hout, e1, e2, e3, e4, e5]

/-- C1 witness: a first DstBlt with all five presence bits set decodes
concrete values, and a second DstBlt with `fieldFlags = 0` leaves every one of
them in place. -/
theorem dstblt_differential_state_witness :
    update_read_dstblt_order ⟨0x1F, false⟩ ⟨0, 0, 0, 0, 0⟩
        ⟨[10, 0, 20, 0, 50, 0, 60, 0, 0xAA], 0⟩
      = some (⟨10, 20, 50, 60, 0xAA⟩, ⟨[10, 0, 20, 0, 50, 0, 60, 0, 0xAA], 9⟩) ∧
    update_read_dstblt_order ⟨0, false⟩ ⟨10, 20, 50, 60, 0xAA⟩ ⟨[], 0⟩
      = some ((⟨10, 20, 50, 60, 0xAA⟩ : DSTBLT_ORDER), (⟨[], 0⟩ : WStream)) := by
  constructor
  · decide
  · have h : update_read_dstblt_order ⟨0, false⟩ ⟨10, 20, 50, 60, 0xAA⟩ ⟨[], 0⟩
        = some (⟨10, 20, 50, 60, 0xAA⟩, ⟨[], 0⟩) := by decide
    have := (dstblt_differential_state ⟨0, false⟩ ⟨10, 20, 50, 60, 0xAA⟩ ⟨[], 0⟩
        (⟨10, 20, 50, 60, 0xAA⟩, ⟨[], 0⟩) h).2.2.2.2.2 rfl
    rw [h]

/-- C9: whatever the remaining-field decoder does, FastGlyph decode fails as
soon as the `cacheId` in effect after field 1 (read from the wire if its
presence bit is set, otherwise persisted) exceeds 9, and only a `cacheId`
of at most 9 reaches the remaining fields; with the presence bit clear the
effective `cacheId` is the persisted one. -/
theorem fast_glyph_cache_id_bound
    (rest : FAST_GLYPH_ORDER → WStream → Option (FAST_GLYPH_ORDER × WStream))
    (orderInfo : ORDER_INFO) (fastGlyph : FAST_GLYPH_ORDER) (s : WStream)
    (cid : Nat) (s1 : WStream)
    (h : read_order_field_byte orderInfo 1 fastGlyph.cacheId s = some (cid, s1)) :
    (9 < cid → update_read_fast_glyph_order rest orderInfo fastGlyph s = none) ∧
    (cid ≤ 9 → update_read_fast_glyph_order rest orderInfo fastGlyph s
        = rest { fastGlyph with cacheId := cid } s1) ∧
    (orderInfo.fieldFlags &&& 0x01 = 0 → cid = fastGlyph.cacheId) := by
  refine ⟨?_, ?_, ?_⟩
  · intro hgt
    unfold update_read_fast_glyph_order
    rw [h]
    simp only [Option.some_bind]
    rw [if_pos hgt]
  · intro hle
    unfold update_read_fast_glyph_order
    rw [h]
    simp only [Option.some_bind]
    rw [if_neg (by omega)]
  · intro hbit
    rw [read_order_field_byte_not_set orderInfo 1 fastGlyph.cacheId s (by simpa using hbit)] at h
    exact (Prod.mk.injEq _ _ _ _ ▸ Option.some_inj.mp h).1.symm

/-- C9 witness: a persisted `cacheId` of 10 with a clear presence bit makes
the decode fail regardless of the continuation. -/
theorem fast_glyph_cache_id_bound_witness :
    update_read_fast_glyph_order (fun g t => some (g, t)) ⟨0, false⟩ ⟨10⟩ ⟨[], 0⟩ = none :=
  (fast_glyph_cache_id_bound (fun g t => some (g, t)) ⟨0, false⟩ ⟨10⟩ ⟨[], 0⟩ 10 ⟨[], 0⟩
    (by decide)).1 (by decide)

/-- Cursor algebra: advancing twice adds the amounts. -/
theorem WStream.advance_advance (s : WStream) (a b : Nat) :
    (s.advance a).advance b = s.advance (a + b) := by
  simp [WStream.advance, Nat.add_assoc]

/-- Advancing by zero is the identity. -/
theorem WStream.advance_zero (s : WStream) : s.advance 0 = s := by
  simp [WStream.advance]

/-- Advancing consumes exactly that many remaining bytes. -/
theorem WStream.remaining_advance (s : WStream) (k : Nat) :
    (s.advance k).remaining = s.remaining - k := by
  simp [WStream.advance, WStream.remaining]
  omega

/-- C10: with at least the 6 fixed bytes available, a zero `cx` or `cy` makes
Create Offscreen Bitmap decode fail (before any delete-list data is touched),
and with nonzero dimensions and the delete-list-present bit 0x8000 clear the
decode succeeds, resetting the persisted delete-list count to 0 while keeping
its storage. -/
theorem create_offscreen_bitmap_checks (order : CREATE_OFFSCREEN_BITMAP_ORDER)
    (s : WStream) (h6 : 6 ≤ s.remaining) :
    (s.u16At 2 = 0 ∨ s.u16At 4 = 0 →
      update_read_create_offscreen_bitmap_order order s = none) ∧
    (s.u16At 2 ≠ 0 → s.u16At 4 ≠ 0 → s.u16At 0 &&& 0x8000 = 0 →
      update_read_create_offscreen_bitmap_order order s
        = some ({ id := s.u16At 0 &&& 0x7FFF, cx := s.u16At 2, cy := s.u16At 4,
                  deleteList := { order.deleteList with cIndices := 0 } }, s.advance 6)) := by
  constructor
  · intro hzero
    unfold update_read_create_offscreen_bitmap_order
    rw [if_neg (by omega), if_pos hzero]
  · intro hcx hcy hbit
    unfold update_read_create_offscreen_bitmap_order
    rw [if_neg (by omega), if_neg (by simp [hcx, hcy])]
    simp [hbit]

/-- C10 witness: a concrete order with cx = 1, cy = 1 and a clear delete-list
bit keeps the persisted storage and zeroes the count. -/
theorem create_offscreen_bitmap_checks_witness :
    update_read_create_offscreen_bitmap_order ⟨7, 8, 9, ⟨5, 3, [11, 12, 13, 14, 15]⟩⟩
        ⟨[2, 0x70, 1, 0, 1, 0], 0⟩
      = some ({ id := (WStream.mk [2, 0x70, 1, 0, 1, 0] 0).u16At 0 &&& 0x7FFF,
                cx := (WStream.mk [2, 0x70, 1, 0, 1, 0] 0).u16At 2,
                cy := (WStream.mk [2, 0x70, 1, 0, 1, 0] 0).u16At 4,
                deleteList := { sIndices := 5, cIndices := 0, indices := [11, 12, 13, 14, 15] } },
              (WStream.mk [2, 0x70, 1, 0, 1, 0] 0).advance 6) :=
  (create_offscreen_bitmap_checks ⟨7, 8, 9, ⟨5, 3, [11, 12, 13, 14, 15]⟩⟩
      ⟨[2, 0x70, 1, 0, 1, 0], 0⟩ (by decide)).2 (by decide) (by decide) (by decide)

/-- With enough input the quad loop reads exactly 4 bytes per entry. -/
theorem read_color_quads_spec (n : Nat) : ∀ s : WStream, 4 * n ≤ s.remaining →
    (read_color_quads n s).1.length = n ∧ (read_color_quads n s).2 = s.advance (4 * n) := by
  induction n with
  | zero =>
      intro s _
      exact ⟨rfl, (s.advance_zero).symm⟩
  | succ n ih =>
      intro s h
      have hq : update_read_color_quad s = some
          ((s.byteAt 0 ||| (s.byteAt 1 <<< 8)) ||| (s.byteAt 2 <<< 16), s.advance 4) := by
        unfold update_read_color_quad update_read_colorref
        rw [if_neg (by omega)]
      have hrem : 4 * n ≤ (s.advance 4).remaining := by
        rw [s.remaining_advance]
        omega
      obtain ⟨ihl, ihs⟩ := ih (s.advance 4) hrem
      unfold read_color_quads
      rw [hq]
      refine ⟨by simp [ihl], ?_⟩
      have h4 : 4 + 4 * n = 4 * (n + 1) := by omega
      simp only [ihs, WStream.advance_advance, h4]

/-- C5: Cache Color Table decode fails whenever the decoded 16-bit
`numberColors` differs from 256; when it equals 256 and at least 1024 payload
bytes remain, decode succeeds and consumes exactly 256 4-byte quads. -/
theorem cache_color_table_decode_spec (s : WStream) :
    (3 ≤ s.remaining → s.byteAt 1 + 256 * s.byteAt 2 ≠ 256 →
      update_read_cache_color_table_order s = none) ∧
    (s.byteAt 1 + 256 * s.byteAt 2 = 256 → 3 + 1024 ≤ s.remaining →
      update_read_cache_color_table_order s
        = some ({ cacheIndex := s.byteAt 0, numberColors := 256,
                  colorTable := (read_color_quads 256 (s.advance 3)).1 }, s.advance 1027) ∧
      (read_color_quads 256 (s.advance 3)).1.length = 256) := by
  constructor
  · intro h3 hne
    unfold update_read_cache_color_table_order
    rw [if_neg (by omega), if_pos hne]
  · intro h256 hrem
    have hr : 4 * 256 ≤ (s.advance 3).remaining := by
      rw [s.remaining_advance]
      omega
    obtain ⟨hl, hs⟩ := read_color_quads_spec 256 (s.advance 3) hr
    constructor
    · unfold update_read_cache_color_table_order
      rw [h256]
      rw [if_neg (by omega), if_neg (by simp), if_neg (by rw [s.remaining_advance]; omega)]
      rw [hs, WStream.advance_advance]
    · exact hl

/-- C5 witness: a concrete stream with `numberColors = 256` and 1024 payload
bytes decodes through the whole table. -/
theorem cache_color_table_decode_spec_witness :
    update_read_cache_color_table_order ⟨1 :: 0 :: 1 :: List.replicate 1024 0xAB, 0⟩
      = some ({ cacheIndex := (WStream.mk (1 :: 0 :: 1 :: List.replicate 1024 0xAB) 0).byteAt 0,
                numberColors := 256,
                colorTable := (read_color_quads 256
                  ((WStream.mk (1 :: 0 :: 1 :: List.replicate 1024 0xAB) 0).advance 3)).1 },
              (WStream.mk (1 :: 0 :: 1 :: List.replicate 1024 0xAB) 0).advance 1027) ∧
    (read_color_quads 256
        ((WStream.mk (1 :: 0 :: 1 :: List.replicate 1024 0xAB) 0).advance 3)).1.length = 256 :=
  (cache_color_table_decode_spec ⟨1 :: 0 :: 1 :: List.replicate 1024 0xAB, 0⟩).2
    (by decide) (by decide)

/-- C2 counterexample: with declared `orderLength = 0` the code's payload end
offset is the post-header position plus 7, not plus 6: a dispatch that leaves
the cursor at `start + 0 + 7 = 12` sits past the claimed end `5 + (0 + 6) =
11`, yet the order decode succeeds instead of failing. -/
theorem secondary_order_length_claim_counterexample :
    ((fun _ _ (t : WStream) => (true, t.advance 7)) 0 7
        ((WStream.mk [0, 0, 0, 0, 7, 1, 2, 3, 4, 5, 6, 7] 0).advance 5)).2.pos = 12 ∧
    5 + (0 + 6) < 12 ∧
    update_recv_secondary_order true true (fun _ _ t => (true, t.advance 7))
        ⟨[0, 0, 0, 0, 7, 1, 2, 3, 4, 5, 6, 7], 0⟩
      = some ⟨[0, 0, 0, 0, 7, 1, 2, 3, 4, 5, 6, 7], 12⟩ := by
  refine ⟨by decide, by decide, by decide⟩

/-- C2 (amended): the payload end offset is the post-header cursor position
plus the declared `orderLength` plus the header-adjustment constant 7 (13
minus the 6 header bytes already consumed); after the subtype dispatch a
cursor past that end fails the whole order decode, while a cursor at or short
of the end is tolerated by seeking forward to the end, returning the dispatch
verdict. -/
theorem update_recv_secondary_order_framing
    (dispatch : Nat → Nat → WStream → Bool × WStream) (s : WStream)
    (rc : Bool) (s2 : WStream)
    (h5 : 5 ≤ s.remaining)
    (hsigned : s.u16At 0 < 0x8000)
    (hfull : s.u16At 0 + 7 ≤ (s.advance 5).remaining)
    (hdisp : dispatch (s.u16At 2) (s.byteAt 4) (s.advance 5) = (rc, s2))
    (hdata : s2.data = s.data) :
    (s.pos + 5 + (s.u16At 0 + 7) < s2.pos →
      update_recv_secondary_order true true dispatch s = none) ∧
    (s2.pos ≤ s.pos + 5 + (s.u16At 0 + 7) →
      update_recv_secondary_order true true dispatch s
        = if rc then some ⟨s.data, s.pos + 5 + (s.u16At 0 + 7)⟩ else none) := by
  have hlen : s.pos + 5 + (s.u16At 0 + 7) ≤ s.data.length := by
    rw [WStream.remaining_advance] at hfull
    unfold WStream.remaining at hfull
    omega
  have hpos5 : (s.advance 5).pos = s.pos + 5 := rfl
  have hneg : ¬ toINT16 (s.u16At 0) < 0 := by
    unfold toINT16
    rw [if_pos hsigned]
    omega
  constructor
  · intro hover
    unfold update_recv_secondary_order
    rw [if_neg (by omega), if_neg (by simp), if_neg hneg, if_neg (by omega),
      if_neg (by simp)]
    simp only [hdisp, hpos5]
    rw [if_pos (by omega)]
  · intro hle
    unfold update_recv_secondary_order
    rw [if_neg (by omega), if_neg (by simp), if_neg hneg, if_neg (by omega),
      if_neg (by simp)]
    simp only [hdisp, hpos5]
    rw [if_neg (by omega)]
    by_cases hd : 0 < s.pos + 5 + (s.u16At 0 + 7) - s2.pos
    · rw [if_pos hd]
      have hrem : ¬ s2.remaining < s.pos + 5 + (s.u16At 0 + 7) - s2.pos := by
        unfold WStream.remaining
        rw [hdata]
        omega
      rw [if_neg hrem]
      have hadv : s2.advance (s.pos + 5 + (s.u16At 0 + 7) - s2.pos)
          = ⟨s.data, s.pos + 5 + (s.u16At 0 + 7)⟩ := by
        unfold WStream.advance
        rw [hdata]
        congr 1
        omega
      rw [hadv]
    · rw [if_neg hd]
      have hs2 : s2 = ⟨s.data, s.pos + 5 + (s.u16At 0 + 7)⟩ := by
        obtain ⟨d2, p2⟩ := s2
        simp only at hdata hle hd ⊢
        rw [hdata]
        congr 1
        omega
      rw [hs2]

/-- C2 witness: the amended framing applied to a concrete header, payload and
dispatch that stops 3 bytes short of the computed end. -/
theorem update_recv_secondary_order_framing_witness :
    update_recv_secondary_order true true (fun _ _ t => (true, t.advance 4))
        ⟨[0, 0, 0, 0, 7, 1, 2, 3, 4, 5, 6, 7], 0⟩
      = some ⟨[0, 0, 0, 0, 7, 1, 2, 3, 4, 5, 6, 7], 12⟩ := by
  have h := (update_recv_secondary_order_framing (fun _ _ t => (true, t.advance 4))
      ⟨[0, 0, 0, 0, 7, 1, 2, 3, 4, 5, 6, 7], 0⟩ true
      ⟨[0, 0, 0, 0, 7, 1, 2, 3, 4, 5, 6, 7], 9⟩
      (by decide) (by decide) (by decide) (by decide) (by decide)).2 (by decide)
  simpa using h

/-- C8: the 4-bit code in `extraFlags` bits 3-6 maps 3 to 8 bpp, 4 to 16 bpp,
5 to 24 bpp and 6 to 32 bpp; any other code makes Cache Bitmap v2 decode fail
on every input stream (before any payload byte is read), and every successful
decode carries the mapped bpp. -/
theorem cbr2_bpp_mapping :
    (get_cbr2_bpp 3 = some 8 ∧ get_cbr2_bpp 4 = some 16 ∧
      get_cbr2_bpp 5 = some 24 ∧ get_cbr2_bpp 6 = some 32) ∧
    (∀ code : Nat, code ≠ 3 → code ≠ 4 → code ≠ 5 → code ≠ 6 →
      get_cbr2_bpp code = none) ∧
    (∀ (compressed : Bool) (flags : Nat) (s : WStream),
      get_cbr2_bpp ((flags &&& 0x0078) >>> 3) = none →
      update_read_cache_bitmap_v2_order compressed flags s = none) ∧
    (∀ (compressed : Bool) (flags : Nat) (s : WStream)
      (out : CACHE_BITMAP_V2_ORDER × WStream),
      update_read_cache_bitmap_v2_order compressed flags s = some out →
      get_cbr2_bpp ((flags &&& 0x0078) >>> 3) = some out.1.bitmapBpp) := by
  refine ⟨⟨rfl, rfl, rfl, rfl⟩, ?_, ?_, ?_⟩
  · intro code h3 h4 h5 h6
    rcases code with _ | _ | _ | _ | _ | _ | _ | m
    · rfl
    · rfl
    · rfl
    · exact absurd rfl h3
    · exact absurd rfl h4
    · exact absurd rfl h5
    · exact absurd rfl h6
    · rfl
  · intro compressed flags s hnone
    unfold update_read_cache_bitmap_v2_order
    rw [hnone]
  · intro compressed flags s out h
    unfold update_read_cache_bitmap_v2_order at h
    cases hg : get_cbr2_bpp ((flags &&& 0x0078) >>> 3) with
    | none => rw [hg] at h; simp at h
    | some bpp =>
    rw [hg] at h
    simp only [Option.bind_eq_bind] at h
    cases h1 : (if ((flags &&& 0xFF80) >>> 7) &&& CBR2_PERSISTENT_KEY_PRESENT ≠ 0 then
        if s.remaining < 8 then none
        else some ((s.u32At 0, s.u32At 4), s.advance 8)
      else some ((0, 0), s)) with
    | none => rw [h1] at h; simp at h
    | some pk =>
    rw [h1] at h
    simp only [Option.some_bind] at h
    cases h2 : (if ((flags &&& 0xFF80) >>> 7) &&& CBR2_HEIGHT_SAME_AS_WIDTH ≠ 0 then
        (update_read_2byte_unsigned pk.2).map fun pw => ((pw.1, pw.1), pw.2)
      else
        (update_read_2byte_unsigned pk.2).bind fun pw =>
        (update_read_2byte_unsigned pw.2).map fun ph => ((pw.1, ph.1), ph.2)) with
    | none => rw [h2] at h; simp at h
    | some pwh =>
    rw [h2] at h
    simp only [Option.some_bind] at h
    cases h3 : update_read_4byte_unsigned pwh.2 with
    | none => rw [h3] at h; simp at h
    | some plen =>
    rw [h3] at h
    simp only [Option.some_bind] at h
    cases h4 : update_read_2byte_unsigned plen.2 with
    | none => rw [h4] at h; simp at h
    | some pidx =>
    rw [h4] at h
    simp only [Option.some_bind] at h
    cases h5 : (if compressed ∧ ((flags &&& 0xFF80) >>> 7) &&& CBR2_NO_BITMAP_COMPRESSION_HDR = 0
        then
        if pidx.2.remaining < 8 then none
        else some ((pidx.2.u16At 0, pidx.2.u16At 2, pidx.2.u16At 4, pidx.2.u16At 6,
          pidx.2.u16At 2), pidx.2.advance 8)
      else some ((0, 0, 0, 0, plen.1), pidx.2)) with
    | none => rw [h5] at h; simp at h
    | some pc =>
    rw [h5] at h
    simp only [Option.some_bind] at h
    by_cases hz : pc.1.2.2.2.2 = 0
    · rw [if_pos hz] at h; simp at h
    · rw [if_neg hz] at h
      by_cases hr : pc.2.remaining < pc.1.2.2.2.2
      · rw [if_pos hr] at h; simp at h
      · rw [if_neg hr, if_neg hz] at h
        have hout := Option.some_inj.mp h
        rw [← hout]

/-- C8 witness: the invalid-code conjunct at code 0 and the success conjunct
at a concrete uncompressed v2 order with code 3 (8 bpp). -/
theorem cbr2_bpp_mapping_witness :
    update_read_cache_bitmap_v2_order false 0x0000 ⟨[], 0⟩ = none ∧
    get_cbr2_bpp ((0x0018 &&& 0x0078) >>> 3)
      = some (({ cacheId := 0, flags := 0, bitmapBpp := 8, key1 := 0, key2 := 0,
                 bitmapWidth := 4, bitmapHeight := 4, bitmapLength := 1, cacheIndex := 5,
                 cbCompFirstRowSize := 0, cbCompMainBodySize := 0, cbScanWidth := 0,
                 cbUncompressedSize := 0, bitmapDataStream := [0xEE],
                 compressed := false } : CACHE_BITMAP_V2_ORDER),
          (⟨[4, 4, 1, 5, 0xEE], 5⟩ : WStream)).1.bitmapBpp := by
  constructor
  · exact cbr2_bpp_mapping.2.2.1 false 0 ⟨[], 0⟩ (by decide)
  · exact cbr2_bpp_mapping.2.2.2 false 0x0018 ⟨[4, 4, 1, 5, 0xEE], 0⟩
      _ (by decide)

/-- The MultiDstBlt field phase never touches the persisted rectangle array,
count or `cbData`. -/
theorem multi_dstblt_fields_shape (orderInfo : ORDER_INFO) (m : MULTI_DSTBLT_ORDER)
    (s : WStream) (out : (MULTI_DSTBLT_ORDER × Nat) × WStream)
    (h : update_read_multi_dstblt_fields orderInfo m s = some out) :
    out.1.1.rectangles = m.rectangles ∧ out.1.1.numRectangles = m.numRectangles ∧
    out.1.1.cbData = m.cbData := by
  simp only [update_read_multi_dstblt_fields, Option.bind_eq_some, Option.map_eq_some'] at h
  obtain ⟨p1, h1, p2, h2, p3, h3, p4, h4, p5, h5, p6, h6, hfin⟩ := h
  rw [← hfin]
  exact ⟨rfl, rfl, rfl⟩

/-- The MultiScrBlt field phase never touches the persisted rectangle array,
count or `cbData`. -/
theorem multi_scrblt_fields_shape (orderInfo : ORDER_INFO) (m : MULTI_SCRBLT_ORDER)
    (s : WStream) (out : (MULTI_SCRBLT_ORDER × Nat) × WStream)
    (h : update_read_multi_scrblt_fields orderInfo m s = some out) :
    out.1.1.rectangles = m.rectangles ∧ out.1.1.numRectangles = m.numRectangles ∧
    out.1.1.cbData = m.cbData := by
  simp only [update_read_multi_scrblt_fields, Option.bind_eq_some, Option.map_eq_some'] at h
  obtain ⟨p1, h1, p2, h2, p3, h3, p4, h4, p5, h5, p6, h6, p7, h7, p8, h8, hfin⟩ := h
  rw [← hfin]
  exact ⟨rfl, rfl, rfl⟩

/-- C6: for MultiDstBlt and MultiScrBlt, when the has-extended-data field bit
is clear and the field phase succeeds with a newly read count `n`, the decode
fails exactly when `n` exceeds the persisted count, and on success the
persisted rectangle array is kept unchanged while the count becomes `n`. -/
theorem multi_dstblt_persisted_rects :
    (∀ (orderInfo : ORDER_INFO) (m : MULTI_DSTBLT_ORDER) (s : WStream)
      (st1 : MULTI_DSTBLT_ORDER) (n : Nat) (s1 : WStream),
      update_read_multi_dstblt_fields orderInfo m s = some ((st1, n), s1) →
      orderInfo.fieldFlags &&& 0x40 = 0 →
      st1.rectangles = m.rectangles ∧ st1.numRectangles = m.numRectangles ∧
      update_read_multi_dstblt_order orderInfo m s
        = if m.numRectangles < n then none
          else some ({ st1 with numRectangles := n }, s1)) ∧
    (∀ (orderInfo : ORDER_INFO) (m : MULTI_SCRBLT_ORDER) (s : WStream)
      (st1 : MULTI_SCRBLT_ORDER) (n : Nat) (s1 : WStream),
      update_read_multi_scrblt_fields orderInfo m s = some ((st1, n), s1) →
      orderInfo.fieldFlags &&& 0x100 = 0 →
      st1.rectangles = m.rectangles ∧ st1.numRectangles = m.numRectangles ∧
      update_read_multi_scrblt_order orderInfo m s
        = if m.numRectangles < n then none
          else some ({ st1 with numRectangles := n }, s1)) := by
  constructor
  · intro orderInfo m s st1 n s1 hfields hbit
    obtain ⟨hrect, hnum, _⟩ := multi_dstblt_fields_shape orderInfo m s ((st1, n), s1) hfields
    refine ⟨hrect, hnum, ?_⟩
    unfold update_read_multi_dstblt_order
    rw [hfields]
    simp only [Option.some_bind]
    rw [if_neg (by simp [hbit])]
    rw [show st1.numRectangles = m.numRectangles from hnum]
  · intro orderInfo m s st1 n s1 hfields hbit
    obtain ⟨hrect, hnum, _⟩ := multi_scrblt_fields_shape orderInfo m s ((st1, n), s1) hfields
    refine ⟨hrect, hnum, ?_⟩
    unfold update_read_multi_scrblt_order
    rw [hfields]
    simp only [Option.some_bind]
    rw [if_neg (by simp [hbit])]
    rw [show st1.numRectangles = m.numRectangles from hnum]

/-- C6 witness: with presence bits 6 only (count byte on the wire, extended
bit clear), a persisted 3-rectangle MultiDstBlt clipped to a newly read count
of 2 keeps the stored array, while a newly read count of 4 fails. -/
theorem multi_dstblt_persisted_rects_witness :
    (({ nLeftRect := 1, nTopRect := 2, nWidth := 3, nHeight := 4, bRop := 5,
        numRectangles := 3, cbData := 6,
        rectangles := [⟨1, 1, 1, 1⟩, ⟨2, 2, 2, 2⟩, ⟨3, 3, 3, 3⟩] } :
          MULTI_DSTBLT_ORDER).rectangles
      = [(⟨1, 1, 1, 1⟩ : DELTA_RECT), ⟨2, 2, 2, 2⟩, ⟨3, 3, 3, 3⟩]) ∧
    update_read_multi_dstblt_order ⟨0x20, false⟩
        { nLeftRect := 1, nTopRect := 2, nWidth := 3, nHeight := 4, bRop := 5,
          numRectangles := 3, cbData := 6,
          rectangles := [⟨1, 1, 1, 1⟩, ⟨2, 2, 2, 2⟩, ⟨3, 3, 3, 3⟩] } ⟨[2], 0⟩
      = some ({ nLeftRect := 1, nTopRect := 2, nWidth := 3, nHeight := 4, bRop := 5,
                numRectangles := 2, cbData := 6,
                rectangles := [⟨1, 1, 1, 1⟩, ⟨2, 2, 2, 2⟩, ⟨3, 3, 3, 3⟩] }, ⟨[2], 1⟩) ∧
    update_read_multi_dstblt_order ⟨0x20, false⟩
        { nLeftRect := 1, nTopRect := 2, nWidth := 3, nHeight := 4, bRop := 5,
          numRectangles := 3, cbData := 6,
          rectangles := [⟨1, 1, 1, 1⟩, ⟨2, 2, 2, 2⟩, ⟨3, 3, 3, 3⟩] } ⟨[4], 0⟩
      = none := by
  have h2 := (multi_dstblt_persisted_rects.1 ⟨0x20, false⟩
      { nLeftRect := 1, nTopRect := 2, nWidth := 3, nHeight := 4, bRop := 5,
        numRectangles := 3, cbData := 6,
        rectangles := [⟨1, 1, 1, 1⟩, ⟨2, 2, 2, 2⟩, ⟨3, 3, 3, 3⟩] } ⟨[2], 0⟩
      { nLeftRect := 1, nTopRect := 2, nWidth := 3, nHeight := 4, bRop := 5,
        numRectangles := 3, cbData := 6,
        rectangles := [⟨1, 1, 1, 1⟩, ⟨2, 2, 2, 2⟩, ⟨3, 3, 3, 3⟩] } 2 ⟨[2], 1⟩
      (by decide) (by decide)).2.2
  have h4 := (multi_dstblt_persisted_rects.1 ⟨0x20, false⟩
      { nLeftRect := 1, nTopRect := 2, nWidth := 3, nHeight := 4, bRop := 5,
        numRectangles := 3, cbData := 6,
        rectangles := [⟨1, 1, 1, 1⟩, ⟨2, 2, 2, 2⟩, ⟨3, 3, 3, 3⟩] } ⟨[4], 0⟩
      { nLeftRect := 1, nTopRect := 2, nWidth := 3, nHeight := 4, bRop := 5,
        numRectangles := 3, cbData := 6,
        rectangles := [⟨1, 1, 1, 1⟩, ⟨2, 2, 2, 2⟩, ⟨3, 3, 3, 3⟩] } 4 ⟨[4], 1⟩
      (by decide) (by decide)).2.2
  refine ⟨rfl, ?_, ?_⟩
  · rw [h2]
    decide
  · rw [h4]
    decide

/-- When an entry's width (resp. height) zero bit is set, the decoded fields
carry the inherited previous width (resp. height), or 0 for entry 0. -/
theorem read_delta_rect_fields_shape (zb : Nat → Nat) (i flags : Nat) (prevW prevH : Int)
    (s : WStream) (p : DELTA_RECT × WStream)
    (h : read_delta_rect_fields zb i flags prevW prevH s = some p) :
    ((if i % 2 = 0 then zb (i / 2) else flags) &&& 0x20 ≠ 0 →
      p.1.width = if 0 < i then prevW else 0) ∧
    ((if i % 2 = 0 then zb (i / 2) else flags) &&& 0x10 ≠ 0 →
      p.1.height = if 0 < i then prevH else 0) := by
  simp only [read_delta_rect_fields, Option.bind_eq_some, Option.map_eq_some'] at h
  obtain ⟨pl, hpl, pt, hpt, pw, hpw, ph, hph, hfin⟩ := h
  constructor
  · intro hw
    rw [if_neg hw] at hpw
    have hpw2 := Option.some_inj.mp hpw
    rw [← hfin, ← hpw2]
  · intro hh
    rw [if_neg hh] at hph
    have hph2 := Option.some_inj.mp hph
    rw [← hfin, ← hph2]

/-- The accumulation preserves list length. -/
theorem accumRects_length : ∀ (rs : List DELTA_RECT) (prev : DELTA_RECT) (i : Nat),
    (accumRects prev i rs).length = rs.length := by
  intro rs
  induction rs with
  | nil => intro prev i; rfl
  | cons r rs ih =>
      intro prev i
      simp [accumRects, ih]

/-- Adjacent accumulated entries differ by exactly the raw delta of the later
entry (left and top). -/
theorem accumRects_adjacent : ∀ (raws : List DELTA_RECT) (prev : DELTA_RECT) (i k : Nat),
    k + 1 < raws.length →
    ((accumRects prev i raws).getD (k + 1) dRect0).left
        = ((accumRects prev i raws).getD k dRect0).left + (raws.getD (k + 1) dRect0).left ∧
    ((accumRects prev i raws).getD (k + 1) dRect0).top
        = ((accumRects prev i raws).getD k dRect0).top + (raws.getD (k + 1) dRect0).top := by
  intro raws
  induction raws with
  | nil =>
      intro prev i k hk
      simp at hk
  | cons r rs ih =>
      intro prev i k hk
      rcases k with _ | k
      · cases rs with
        | nil => simp at hk
        | cons r2 rs2 =>
            simp only [accumRects, List.getD_cons_succ, List.getD_cons_zero]
            constructor
            · rw [if_pos (Nat.succ_pos i)]
              omega
            · rw [if_pos (Nat.succ_pos i)]
              omega
      · have hk2 : k + 1 < rs.length := by simpa using hk
        simp only [accumRects, List.getD_cons_succ]
        exact ih _ (i + 1) k hk2

/-- For a base index of 0 the first accumulated entry keeps its raw values. -/
theorem accumRects_zero_head (prev : DELTA_RECT) (r : DELTA_RECT) (rs : List DELTA_RECT) :
    (accumRects prev 0 (r :: rs)).getD 0 dRect0 = r := by
  simp [accumRects]

/-- The entry loop computes the accumulation of the raw-delta loop: same
consumption and success, with left/top prefix-summed. -/
theorem update_read_delta_rects_loop_agree (zb : Nat → Nat) :
    ∀ (todo i flags : Nat) (prev prevR : DELTA_RECT) (s : WStream),
      prev.width = prevR.width → prev.height = prevR.height →
      update_read_delta_rects_loop zb i todo flags prev s
        = (update_read_delta_rects_raw_loop zb i todo flags prevR s).map
            (fun pr => (accumRects prev i pr.1, pr.2)) := by
  intro todo
  induction todo with
  | zero =>
      intro i flags prev prevR s hw hh
      simp [update_read_delta_rects_loop, update_read_delta_rects_raw_loop, accumRects]
  | succ n ih =>
      intro i flags prev prevR s hw hh
      simp only [update_read_delta_rects_loop, update_read_delta_rects_raw_loop]
      rw [← hw, ← hh]
      cases hf : read_delta_rect_fields zb i flags prev.width prev.height s with
      | none => simp
      | some p =>
          simp only [Option.some_bind]
          rw [ih (i + 1) (((if i % 2 = 0 then zb (i / 2) else flags) <<< 4) % 256)
            ({ p.1 with left := if 0 < i then p.1.left + prev.left else p.1.left,
                        top := if 0 < i then p.1.top + prev.top else p.1.top }) p.1 p.2 rfl rfl]
          cases hr : update_read_delta_rects_raw_loop zb (i + 1) n
              (((if i % 2 = 0 then zb (i / 2) else flags) <<< 4) % 256) p.1 p.2 with
          | none => simp
          | some pr => simp [accumRects]

/-- Width/height inheritance and length of the entry loop: an entry whose
zero bit is set inherits the previous entry's width/height (or the incoming
previous value for the head entry). -/
theorem update_read_delta_rects_loop_inherit (zb : Nat → Nat) :
    ∀ (todo i flags : Nat) (prev : DELTA_RECT) (s : WStream) (l : List DELTA_RECT)
      (s2 : WStream),
      (i % 2 = 1 → flags = rectZeroFlags zb i) →
      update_read_delta_rects_loop zb i todo flags prev s = some (l, s2) →
      l.length = todo ∧
      (∀ k, k < todo →
        (rectZeroFlags zb (i + k) &&& 0x20 ≠ 0 →
          (l.getD k dRect0).width
            = if k = 0 then (if 0 < i then prev.width else 0)
              else (l.getD (k - 1) dRect0).width) ∧
        (rectZeroFlags zb (i + k) &&& 0x10 ≠ 0 →
          (l.getD k dRect0).height
            = if k = 0 then (if 0 < i then prev.height else 0)
              else (l.getD (k - 1) dRect0).height)) := by
  intro todo
  induction todo with
  | zero =>
      intro i flags prev s l s2 hflags h
      simp only [update_read_delta_rects_loop] at h
      have h2 := Option.some_inj.mp h
      refine ⟨?_, ?_⟩
      · rw [← (Prod.mk.inj h2).1]
        rfl
      · intro k hk
        exact absurd hk (by omega)
  | succ n ih =>
      intro i flags prev s l s2 hflags h
      simp only [update_read_delta_rects_loop] at h
      rw [Option.bind_eq_some] at h
      obtain ⟨p, hp, h2⟩ := h
      rw [Option.map_eq_some'] at h2
      obtain ⟨pr, hpr, hfr⟩ := h2
      have hfl : (if i % 2 = 0 then zb (i / 2) else flags) = rectZeroFlags zb i := by
        by_cases he : i % 2 = 0
        · simp [rectZeroFlags, he]
        · have h1 : i % 2 = 1 := by omega
          simp [rectZeroFlags, h1, hflags h1]
      have hfields := read_delta_rect_fields_shape zb i flags prev.width prev.height s p hp
      have hflags2 : (i + 1) % 2 = 1 →
          ((if i % 2 = 0 then zb (i / 2) else flags) <<< 4) % 256
            = rectZeroFlags zb (i + 1) := by
        intro hodd
        have he : i % 2 = 0 := by omega
        have hdiv : (i + 1) / 2 = i / 2 := by omega
        simp [rectZeroFlags, he, hodd, hdiv]
      obtain ⟨ihlen, ihk⟩ := ih (i + 1)
        (((if i % 2 = 0 then zb (i / 2) else flags) <<< 4) % 256)
        ({ p.1 with left := if 0 < i then p.1.left + prev.left else p.1.left,
                    top := if 0 < i then p.1.top + prev.top else p.1.top }) p.2 pr.1 pr.2
        hflags2 hpr
      have hl : ({ p.1 with left := if 0 < i then p.1.left + prev.left else p.1.left,
                            top := if 0 < i then p.1.top + prev.top else p.1.top }) :: pr.1
          = l := (Prod.mk.inj hfr).1
      refine ⟨by rw [← hl]; simp [ihlen], ?_⟩
      intro k hk
      rcases k with _ | k
      · rw [← hl]
        constructor
        · intro hbit
          rw [Nat.add_zero] at hbit
          have := hfields.1 (by rw [hfl]; exact hbit)
          simpa using this
        · intro hbit
          rw [Nat.add_zero] at hbit
          have := hfields.2 (by rw [hfl]; exact hbit)
          simpa using this
      · have hk2 : k < n := by omega
        have hrec := ihk k hk2
        have hik : i + (k + 1) = (i + 1) + k := by omega
        rw [← hl]
        constructor
        · intro hbit
          rw [hik] at hbit
          have hw := hrec.1 hbit
          rcases k with _ | kk
          · simpa using hw
          · simp only [List.getD_cons_succ]
            simpa using hw
        · intro hbit
          rw [hik] at hbit
          have hh := hrec.2 hbit
          rcases k with _ | kk
          · simpa using hh
          · simp only [List.getD_cons_succ]
            simpa using hh

/-- C3: a requested count above 45 fails without consuming anything; on
success the decode has exactly `number` entries whose left/top are the
accumulation of the raw per-entry deltas (entry `i` equals entry `i-1` plus
its own delta, entry 0 keeps its raw values), and an entry whose width
(resp. height) zero-header bit is set inherits the previous entry's width
(resp. height), or 0 for entry 0. -/
theorem delta_rects_decode_spec :
    (∀ (number : Nat) (s : WStream), 45 < number →
      update_read_delta_rects number s = none) ∧
    (∀ (number : Nat) (s : WStream) (l : List DELTA_RECT) (s2 : WStream),
      update_read_delta_rects number s = some (l, s2) →
      l.length = number ∧
      (∃ raws, update_read_delta_rects_raw number s = some (raws, s2) ∧
        raws.length = number ∧ l = accumRects dRect0 0 raws ∧
        (0 < number → (l.getD 0 dRect0).left = (raws.getD 0 dRect0).left ∧
          (l.getD 0 dRect0).top = (raws.getD 0 dRect0).top) ∧
        (∀ k, k + 1 < number →
          (l.getD (k + 1) dRect0).left
              = (l.getD k dRect0).left + (raws.getD (k + 1) dRect0).left ∧
          (l.getD (k + 1) dRect0).top
              = (l.getD k dRect0).top + (raws.getD (k + 1) dRect0).top)) ∧
      (∀ k, k < number →
        (rectZeroFlags s.byteAt k &&& 0x20 ≠ 0 →
          (l.getD k dRect0).width = if k = 0 then 0 else (l.getD (k - 1) dRect0).width) ∧
        (rectZeroFlags s.byteAt k &&& 0x10 ≠ 0 →
          (l.getD k dRect0).height
            = if k = 0 then 0 else (l.getD (k - 1) dRect0).height))) := by
  constructor
  · intro number s hgt
    unfold update_read_delta_rects
    rw [if_pos hgt]
  · intro number s l s2 h
    unfold update_read_delta_rects at h
    by_cases hgt : 45 < number
    · rw [if_pos hgt] at h
      exact absurd h (by simp)
    · rw [if_neg hgt] at h
      by_cases hrem : s.remaining < (number + 1) / 2
      · rw [if_pos hrem] at h
        exact absurd h (by simp)
      · rw [if_neg hrem] at h
        obtain ⟨hlen, hinherit⟩ := update_read_delta_rects_loop_inherit s.byteAt number 0 0
          ⟨0, 0, 0, 0⟩ (s.advance ((number + 1) / 2)) l s2 (by omega) h
        have hagree := update_read_delta_rects_loop_agree s.byteAt number 0 0
          ⟨0, 0, 0, 0⟩ ⟨0, 0, 0, 0⟩ (s.advance ((number + 1) / 2)) rfl rfl
        rw [hagree] at h
        cases hr : update_read_delta_rects_raw_loop s.byteAt 0 number 0 ⟨0, 0, 0, 0⟩
            (s.advance ((number + 1) / 2)) with
        | none => rw [hr] at h; exact absurd h (by simp)
        | some pr =>
            rw [hr] at h
            simp only [Option.map_some'] at h
            have hpair := Option.some_inj.mp h
            have hl : accumRects ⟨0, 0, 0, 0⟩ 0 pr.1 = l := (Prod.mk.inj hpair).1
            have hs : pr.2 = s2 := (Prod.mk.inj hpair).2
            refine ⟨hlen, ⟨pr.1, ?_, ?_, ?_, ?_, ?_⟩, ?_⟩
            · unfold update_read_delta_rects_raw
              rw [if_neg hgt, if_neg hrem, hr, ← hs]
            · have := accumRects_length pr.1 dRect0 0
              rw [show dRect0 = (⟨0, 0, 0, 0⟩ : DELTA_RECT) from rfl, hl] at this
              rw [← this, hlen]
            · rw [← hl]
              rfl
            · intro hpos
              rw [← hl]
              cases hc : pr.1 with
              | nil =>
                  rw [hc] at hl
                  rw [← hl] at hlen
                  simp [accumRects] at hlen
                  omega
              | cons r rs =>
                  rw [accumRects_zero_head]
                  simp
            · intro k hk
              have hlt : k + 1 < pr.1.length := by
                have := accumRects_length pr.1 dRect0 0
                rw [show dRect0 = (⟨0, 0, 0, 0⟩ : DELTA_RECT) from rfl, hl] at this
                omega
              have := accumRects_adjacent pr.1 dRect0 0 k hlt
              rw [show dRect0 = (⟨0, 0, 0, 0⟩ : DELTA_RECT) from rfl, hl] at this
              exact this
            · intro k hk
              have := hinherit k hk
              simpa using this

/-- C3 witness: a 3-rectangle array (all fields explicit on entry 0,
delta-only left/top with inherited width/height on entries 1-2) decodes to the
running sums, and a 46-rectangle request fails. -/
theorem delta_rects_decode_spec_witness :
    update_read_delta_rects 46 ⟨[], 0⟩ = none ∧
    update_read_delta_rects 3 ⟨[0x03, 0x30, 5, 6, 7, 8, 2, 3, 1, 1], 0⟩
      = some ([⟨5, 6, 7, 8⟩, ⟨7, 9, 7, 8⟩, ⟨8, 10, 7, 8⟩],
          ⟨[0x03, 0x30, 5, 6, 7, 8, 2, 3, 1, 1], 10⟩) ∧
    ([(⟨5, 6, 7, 8⟩ : DELTA_RECT), ⟨7, 9, 7, 8⟩, ⟨8, 10, 7, 8⟩] : List DELTA_RECT).length
      = 3 := by
  refine ⟨delta_rects_decode_spec.1 46 ⟨[], 0⟩ (by decide), by decide, ?_⟩
  exact (delta_rects_decode_spec.2 3 ⟨[0x03, 0x30, 5, 6, 7, 8, 2, 3, 1, 1], 0⟩
    [⟨5, 6, 7, 8⟩, ⟨7, 9, 7, 8⟩, ⟨8, 10, 7, 8⟩]
    ⟨[0x03, 0x30, 5, 6, 7, 8, 2, 3, 1, 1], 10⟩ (by decide)).1

end FreeRDPOrders
